import Mathlib

/-!
# Verification of the Irksome time-stepping library

Shallow embedding of the stepping and adaptivity control logic of
`src/irksome/stepper.py` and `src/irksome/discontinuous_galerkin_stepper.py`,
together with proofs about the properties claimed in the specification.

Conventions of the embedding:
* Python floats are modelled as exact rationals (`ℚ`); the floating-point
  power operator `**` is an external parameter `powf : ℚ → ℚ → ℚ` (its exact
  rounding behaviour is irrelevant to the control-flow properties proved here,
  but Python's division-by-zero exception is modelled faithfully).
* Data arrays (`dat.data` of a `firedrake.Function`) are modelled as maps
  from a degree-of-freedom index to a rational.
* Exceptions are modelled with `Except`.
-/

namespace Irksome

/-- Python exceptions raised by the code paths modelled here:
`ZeroDivisionError` from float division, and the
`RuntimeError("Minimum time step threshold violated")` raise in
`AdaptiveTimeStepper.advance`. -/
inductive PyErr where
  | zeroDivision
  | minStepViolation
  deriving DecidableEq, Repr

/-- Python float division `a / b`: raises `ZeroDivisionError` when `b == 0`,
otherwise returns the quotient (modelled exactly over `ℚ`). -/
def fdiv (a b : ℚ) : Except PyErr ℚ :=
  if b = 0 then .error .zeroDivision else .ok (a / b)

/-- The clamping of the scale factor in `AdaptiveTimeStepper.advance`
(stepper.py lines 171-174): `if q <= 0.1: q = 0.1 elif q >= 4.0: q = 4.0`. -/
def clampQ (q : ℚ) : ℚ :=
  if q ≤ 1/10 then 1/10 else if 4 ≤ q then 4 else q

/-- The computation of the scale factor
`q = 0.84 * (self.tol / err)**(1./(self.butcher_tableau.order-1))`
followed by the clamping (stepper.py lines 169-174).  `powf` stands for the
floating-point power operator `**` (total on the values reached here);
the two divisions are Python float divisions and may raise
`ZeroDivisionError`. -/
def qFactor (powf : ℚ → ℚ → ℚ) (tol err : ℚ) (order : ℤ) : Except PyErr ℚ :=
  match fdiv tol err with
  | .error e => .error e
  | .ok base =>
    match fdiv 1 ((order : ℚ) - 1) with
    | .error e => .error e
    | .ok expo => .ok (clampQ (84/100 * powf base expo))

/-- Result of `AdaptiveTimeStepper.advance` when no exception is raised:
either the `return (err, dtnew)` of the accept branch (together with the
final values of the state `t`, `dt`, `u0`), or `running` when the supplied
list of per-attempt error estimates is exhausted with the `while 1` loop
still rejecting (the loop has no iteration cap). -/
inductive AdvOut (α : Type) where
  | accepted (err dtnew : ℚ) (t dt : ℚ) (u0 : α)
  | running (t dt : ℚ) (u0 : α)
  deriving DecidableEq, Repr

/-- The `while 1` loop of `AdaptiveTimeStepper.advance` (stepper.py lines
161-187).  Each iteration refreshes the boundary data, solves the stage
system and estimates the truncation error; those three external effects are
summarised by the next entry of `errs`, the list of successive error
estimates produced by the solver/estimator.  `upd` is the effect of
`self._update()` on `u0` (it reads the current `dt`).  The state threaded
through is `(t, dt, u0)`; an exception carries the state at the moment of
the raise. -/
def adaptiveAdvance (powf : ℚ → ℚ → ℚ) {α : Type} (upd : ℚ → α → α)
    (tol dtmin : ℚ) (order : ℤ) :
    List ℚ → ℚ → ℚ → α → Except (PyErr × ℚ × ℚ × α) (AdvOut α)
  | [], t, dt, u0 => .ok (.running t dt u0)
  | err :: rest, t, dt, u0 =>
    match qFactor powf tol err order with
    | .error e => .error (e, t, dt, u0)
    | .ok q =>
      let dtnew := q * dt
      if tol ≤ err then
        adaptiveAdvance powf upd tol dtmin order rest t dtnew u0
      else if dtnew ≤ dtmin then
        .error (.minStepViolation, t, dt, u0)
      else
        .ok (.accepted err dtnew t dtnew (upd dt u0))

theorem clampQ_mem (q : ℚ) : 1/10 ≤ clampQ q ∧ clampQ q ≤ 4 := by
  unfold clampQ
  split_ifs with h1 h2
  · norm_num
  · norm_num
  · push_neg at h1 h2
    exact ⟨le_of_lt h1, le_of_lt h2⟩

theorem qFactor_ok_bounds (powf : ℚ → ℚ → ℚ) (tol err : ℚ) (order : ℤ) (q : ℚ)
    (h : qFactor powf tol err order = .ok q) : 1/10 ≤ q ∧ q ≤ 4 := by
  unfold qFactor fdiv at h
  split_ifs at h
  simp only [Except.ok.injEq] at h
  subst h
  exact clampQ_mem _

/-- C10: the scale-factor computation raises `ZeroDivisionError` whenever
`order = 1` (the exponent `1./(order-1)`) or the error estimate is exactly
zero (the ratio `tol/err`); and, for any tableau of consistency order at
least 1, it succeeds exactly under the unstated preconditions `order ≥ 2`
and nonzero error estimate. -/
theorem qFactor_zero_division (powf : ℚ → ℚ → ℚ) (tol err : ℚ) (order : ℤ) :
    ((order = 1 ∨ err = 0) → qFactor powf tol err order = .error .zeroDivision) ∧
    (1 ≤ order → ((∃ q, qFactor powf tol err order = .ok q) ↔ (2 ≤ order ∧ err ≠ 0))) := by
  constructor
  · rintro (h | h)
    · subst h
      unfold qFactor fdiv
      split_ifs with h1 h2 <;> simp_all
    · subst h
      unfold qFactor fdiv
      simp
  · intro hord
    unfold qFactor fdiv
    by_cases herr : err = 0
    · subst herr; simp
    · have hcase : order = 1 ∨ 2 ≤ order := by omega
      rcases hcase with h1 | h2
      · subst h1; simp [herr]
      · have : ((order : ℚ) - 1) ≠ 0 := by
          have : (1 : ℚ) < (order : ℚ) := by exact_mod_cast (by omega : (1:ℤ) < order)
          linarith
        simp [herr, this, h2]

/-- Witness for `qFactor_zero_division`: at `order = 1` the computation
raises `ZeroDivisionError`, and at `order = 2`, `err = 2` it succeeds. -/
theorem qFactor_zero_division_witness :
    qFactor (fun _ _ => 1) 1 2 1 = .error .zeroDivision ∧
    (∃ q, qFactor (fun _ _ => 1) 1 2 2 = .ok q) :=
  ⟨(qFactor_zero_division (fun _ _ => 1) 1 2 1).1 (Or.inl rfl),
   ((qFactor_zero_division (fun _ _ => 1) 1 2 2).2 (by norm_num)).mpr (by norm_num)⟩

/-- Modelled from the spec: the default splitting function `AI` imported by
`stepper.py` from `irksome/getForm.py`, a file not included in the sources.
Per the specification, a splitting takes the tableau matrix `A` to a pair
`(A1, A2)` with `A = A1 · A2`, and "Splitting function defaults to `AI`
(returns A, identity)". -/
def AI {n : ℕ} (A : Matrix (Fin n) (Fin n) ℚ) :
    Matrix (Fin n) (Fin n) ℚ × Matrix (Fin n) (Fin n) ℚ :=
  (A, 1)

/-- One iteration of the outer loop of `TimeStepper._update` (stepper.py
lines 80-82): for stage `s`, each field `i` of `u0` gains
`dtc * b[s] * ks[nf*s+i].dat.data_ro` pointwise.  A field's data array is a
map from dof index to rational; `ks` is the flat stage-major, field-minor
list of stage sub-functions. -/
def updateAdd (dtc : ℚ) (bv : ℕ → ℚ) (nf : ℕ) (ks : ℕ → ℕ → ℚ) (s : ℕ)
    (u : Fin nf → ℕ → ℚ) : Fin nf → ℕ → ℚ :=
  fun i d => u i d + dtc * bv s * ks (nf * s + i.val) d

/-- The loop `for s in range(ns)` of `TimeStepper._update`, applied to the
current value of `u0`; `bv` is the vector obtained from
`numpy.linalg.solve(A2, b)`. -/
def updateRun (dtc : ℚ) (bv : ℕ → ℚ) (nf : ℕ) (ks : ℕ → ℕ → ℚ) :
    ℕ → (Fin nf → ℕ → ℚ) → (Fin nf → ℕ → ℚ)
  | 0, u => u
  | n + 1, u => updateAdd dtc bv nf ks n (updateRun dtc bv nf ks n u)

/-- C2: `_update` adds to each field `i` of `u0` the increment
`dt * Σ_s bv[s] * k_{nf*s+i}` where `bv` solves `A2 · bv = b`; when `A2` is
invertible this solution is `A2⁻¹ b`, and with the default splitting `AI`
the second factor is the identity, so the increment is the plain b-weighted
combination `dt * Σ_s b[s] * k_{nf*s+i}`. -/
theorem update_b_weighted_combination :
    (∀ (dtc : ℚ) (bv : ℕ → ℚ) (nf : ℕ) (ks : ℕ → ℕ → ℚ) (ns : ℕ)
      (u : Fin nf → ℕ → ℚ) (i : Fin nf) (d : ℕ),
      updateRun dtc bv nf ks ns u i d =
        u i d + dtc * ∑ s ∈ Finset.range ns, bv s * ks (nf * s + i.val) d) ∧
    (∀ (n : ℕ) (A : Matrix (Fin n) (Fin n) ℚ) (b bv : Fin n → ℚ),
      (AI A).2.mulVec bv = b → bv = b) ∧
    (∀ (n : ℕ) (A2 : Matrix (Fin n) (Fin n) ℚ) (b bv : Fin n → ℚ),
      IsUnit A2.det → A2.mulVec bv = b → bv = A2⁻¹.mulVec b) := by
  refine ⟨?_, ?_, ?_⟩
  · intro dtc bv nf ks ns u i d
    induction ns with
    | zero => simp [updateRun]
    | succ n ih =>
      rw [updateRun, updateAdd, ih, Finset.sum_range_succ]
      ring
  · intro n A b bv h
    simpa [AI, Matrix.one_mulVec] using h
  · intro n A2 b bv hdet h
    have := congrArg (fun w => A2⁻¹.mulVec w) h
    simpa [Matrix.mulVec_mulVec, Matrix.nonsing_inv_mul A2 hdet,
      Matrix.one_mulVec] using this

/-- Witness for `update_b_weighted_combination`: a 2-stage, 1-field update
with `dt = 1`, `b = (2, 3)`, constant stage data, and the identity system
solved by `b` itself. -/
theorem update_b_weighted_combination_witness :
    (updateRun 1 (fun s => if s = 0 then 2 else 3) 1 (fun _ _ => 5) 2
      (fun _ _ => 7) ⟨0, Nat.one_pos⟩ 0 =
      7 + 1 * ∑ s ∈ Finset.range 2,
        (if s = 0 then (2:ℚ) else 3) * 5) ∧
    ((fun _ : Fin 1 => (2:ℚ)) = fun _ => 2) ∧
    ((fun _ : Fin 1 => (3:ℚ)) = (1 : Matrix (Fin 1) (Fin 1) ℚ)⁻¹.mulVec fun _ => 3) :=
  ⟨update_b_weighted_combination.1 1 (fun s => if s = 0 then 2 else 3) 1
      (fun _ _ => 5) 2 (fun _ _ => 7) ⟨0, Nat.one_pos⟩ 0,
   update_b_weighted_combination.2.1 1 1 (fun _ => 2) (fun _ => 2)
      (by simp [AI, Matrix.one_mulVec]),
   update_b_weighted_combination.2.2 1 1 (fun _ => 3) (fun _ => 3)
      (by simp) (by simp [Matrix.one_mulVec])⟩

/-- C4: whenever `AdaptiveTimeStepper.advance` returns, the returned pair
`(err, dtnew)` satisfies `err < tol`; the final `dt` equals `dtnew`, which is
`q` times the `dt` of the accepted attempt (the same `dt` that `_update`
reads, pinning `dtAcc` to the accepted attempt); and the scale factor
produced by `qFactor` is clamped into `[0.1, 4.0]` on every attempt. -/
theorem adaptiveAdvance_accept_props (powf : ℚ → ℚ → ℚ) {α : Type} (upd : ℚ → α → α)
    (tol dtmin : ℚ) (order : ℤ) (errs : List ℚ) (t0 dt0 : ℚ) (u0 : α)
    (err dtnew t1 dt1 : ℚ) (u1 : α)
    (h : adaptiveAdvance powf upd tol dtmin order errs t0 dt0 u0 =
      .ok (.accepted err dtnew t1 dt1 u1)) :
    err < tol ∧ dt1 = dtnew ∧
      (∃ dtAcc q, qFactor powf tol err order = .ok q ∧ dtnew = q * dtAcc ∧
        u1 = upd dtAcc u0) ∧
      (∀ e q, qFactor powf tol e order = .ok q → 1/10 ≤ q ∧ q ≤ 4) := by
  induction errs generalizing dt0 with
  | nil => simp [adaptiveAdvance] at h
  | cons e rest ih =>
    rw [adaptiveAdvance] at h
    cases hq : qFactor powf tol e order with
    | error pe => rw [hq] at h; simp at h
    | ok q =>
      rw [hq] at h
      simp only at h
      split_ifs at h with h1 h2
      · exact ih _ h
      · injection h with h'
        injection h' with he hdt ht hdt1 hu
        subst he hdt ht hdt1 hu
        exact ⟨lt_of_not_le h1, rfl, ⟨dt0, q, hq, rfl, rfl⟩,
          fun e' q' hq' => qFactor_ok_bounds powf tol e' order q' hq'⟩

/-- Witness for `adaptiveAdvance_accept_props`: a run with one rejected
attempt (`err = 2 ≥ tol = 1`) followed by an accepted one (`err = 1/2`),
with `powf` constantly 1, so every attempt uses `q = 0.84`. -/
theorem adaptiveAdvance_accept_props_witness :
    (1/2 : ℚ) < 1 ∧ (441/625 : ℚ) = 441/625 ∧
      (∃ dtAcc q, qFactor (fun _ _ => 1) 1 (1/2) 2 = .ok q ∧
        (441/625 : ℚ) = q * dtAcc ∧ (21/25 : ℚ) = dtAcc + 0) ∧
      (∀ e q, qFactor (fun _ _ => 1) 1 e 2 = .ok q → 1/10 ≤ q ∧ q ≤ 4) :=
  adaptiveAdvance_accept_props (fun _ _ => 1) (fun d x => d + x) 1 (1/100) 2
    [2, 1/2] 0 1 0 (1/2) (441/625) 0 (441/625) (21/25) (by norm_num [adaptiveAdvance, qFactor, fdiv, clampQ])

/-- C5: at any attempt of the `while 1` loop with error estimate `e` and
scale factor `q`: if `e ≥ tol` the attempt is rejected — the loop assigns
`dt := q*dt` and re-enters (re-solving the stage system before the next
estimate), never raising the minimum-step error at that attempt even when
`q*dt ≤ dt_min`; if `e < tol`, the call raises the minimum-step violation at
this attempt exactly when the predicted next step `q*dt` is at or below
`dt_min`. -/
theorem adaptiveAdvance_min_step (powf : ℚ → ℚ → ℚ) {α : Type} (upd : ℚ → α → α)
    (tol dtmin : ℚ) (order : ℤ) (e : ℚ) (rest : List ℚ) (t0 dt0 : ℚ) (u0 : α) (q : ℚ)
    (hq : qFactor powf tol e order = .ok q) :
    (tol ≤ e → adaptiveAdvance powf upd tol dtmin order (e :: rest) t0 dt0 u0 =
        adaptiveAdvance powf upd tol dtmin order rest t0 (q * dt0) u0) ∧
    (e < tol → (adaptiveAdvance powf upd tol dtmin order (e :: rest) t0 dt0 u0 =
        .error (.minStepViolation, t0, dt0, u0) ↔ q * dt0 ≤ dtmin)) := by
  constructor
  · intro hle
    rw [adaptiveAdvance, hq]
    simp only [if_pos hle]
  · intro hlt
    rw [adaptiveAdvance, hq]
    simp only [if_neg (not_le_of_lt hlt)]
    split_ifs with h2
    · simp [h2]
    · simp [h2]

/-- Witness for `adaptiveAdvance_min_step`: with `tol = 1`, `dt_min = 1`,
`dt = 1/100`, `q = 0.84`: an attempt with `e = 1/2 < tol` and predicted step
`0.0084 ≤ dt_min` raises; an attempt with `e = 2 ≥ tol` recurses instead. -/
theorem adaptiveAdvance_min_step_witness :
    ((1:ℚ) ≤ 2 → adaptiveAdvance (fun _ _ => 1) (fun (_ : ℚ) (x : ℚ) => x) 1 1 2
        [2] 0 (1/100) 0 =
      adaptiveAdvance (fun _ _ => 1) (fun _ x => x) 1 1 2 [] 0 (21/25 * (1/100)) 0) ∧
    ((1/2 : ℚ) < 1 → (adaptiveAdvance (fun _ _ => 1) (fun (_ : ℚ) (x : ℚ) => x) 1 1 2
        [1/2] 0 (1/100) 0 =
      .error (.minStepViolation, 0, 1/100, 0) ↔ (21/25 : ℚ) * (1/100) ≤ 1)) :=
  ⟨(adaptiveAdvance_min_step (fun _ _ => 1) (fun _ x => x) 1 1 2 2 [] 0 (1/100) 0
      (21/25) (by norm_num [qFactor, fdiv, clampQ])).1,
   (adaptiveAdvance_min_step (fun _ _ => 1) (fun _ x => x) 1 1 2 (1/2) [] 0 (1/100) 0
      (21/25) (by norm_num [qFactor, fdiv, clampQ])).2⟩

/-- The state shared between the caller and a `TimeStepper`: the time `t`,
the step size `dt`, the solution `u0` (one data array per field) and the
boundary-condition data refreshed at the top of `advance`. -/
structure TSState (nf : ℕ) (β : Type) where
  t : ℚ
  dt : ℚ
  u0 : Fin nf → ℕ → ℚ
  bcdata : β

/-- `TimeStepper.advance` (stepper.py lines 84-92): refresh the
boundary-condition data (`gmethod(gcur, self.u0)` writes only `gdat`),
invoke the external nonlinear solve — whose outcome, the stage values or a
failure, is the parameter `solveRes` — and on success apply `_update`.
An exception propagates with the state as mutated so far. -/
def tsAdvance {nf : ℕ} {β ε : Type} (bcupdate : β → β)
    (solveRes : Except ε (ℕ → ℕ → ℚ)) (bv : ℕ → ℚ) (ns : ℕ)
    (st : TSState nf β) : Except (ε × TSState nf β) (TSState nf β) :=
  let st1 : TSState nf β := { st with bcdata := bcupdate st.bcdata }
  match solveRes with
  | .error e => .error (e, st1)
  | .ok ks => .ok { st1 with u0 := updateRun st1.dt bv nf ks ns st1.u0 }

theorem adaptiveAdvance_error_frame (powf : ℚ → ℚ → ℚ) {α : Type}
    (upd : ℚ → α → α) (tol dtmin : ℚ) (order : ℤ) (errs : List ℚ)
    (t0 dt0 : ℚ) (u0 : α) (e : PyErr) (t1 dt1 : ℚ) (u1 : α)
    (h : adaptiveAdvance powf upd tol dtmin order errs t0 dt0 u0 =
      .error (e, t1, dt1, u1)) : t1 = t0 ∧ u1 = u0 := by
  induction errs generalizing dt0 with
  | nil => simp [adaptiveAdvance] at h
  | cons er rest ih =>
    rw [adaptiveAdvance] at h
    cases hq : qFactor powf tol er order with
    | error pe =>
      rw [hq] at h
      injection h with h'
      simp only [Prod.mk.injEq] at h'
      exact ⟨h'.2.1.symm, h'.2.2.2.symm⟩
    | ok q =>
      rw [hq] at h
      simp only at h
      split_ifs at h with h1 h2
      · exact ih _ h
      · injection h with h'
        simp only [Prod.mk.injEq] at h'
        exact ⟨h'.2.1.symm, h'.2.2.2.symm⟩

theorem adaptiveAdvance_running_frame (powf : ℚ → ℚ → ℚ) {α : Type}
    (upd : ℚ → α → α) (tol dtmin : ℚ) (order : ℤ) (errs : List ℚ)
    (t0 dt0 : ℚ) (u0 : α) (t1 dt1 : ℚ) (u1 : α)
    (h : adaptiveAdvance powf upd tol dtmin order errs t0 dt0 u0 =
      .ok (.running t1 dt1 u1)) : t1 = t0 ∧ u1 = u0 := by
  induction errs generalizing dt0 with
  | nil =>
    rw [adaptiveAdvance] at h
    injection h with h'
    injection h' with ht hdt hu
    exact ⟨ht.symm, hu.symm⟩
  | cons er rest ih =>
    rw [adaptiveAdvance] at h
    cases hq : qFactor powf tol er order with
    | error pe => rw [hq] at h; simp at h
    | ok q =>
      rw [hq] at h
      simp only at h
      split_ifs at h with h1 h2
      · exact ih _ h
      · injection h with h'
        cases h'

theorem adaptiveAdvance_accept_frame (powf : ℚ → ℚ → ℚ) {α : Type}
    (upd : ℚ → α → α) (tol dtmin : ℚ) (order : ℤ) (errs : List ℚ)
    (t0 dt0 : ℚ) (u0 : α) (er dn t1 dt1 : ℚ) (u1 : α)
    (h : adaptiveAdvance powf upd tol dtmin order errs t0 dt0 u0 =
      .ok (.accepted er dn t1 dt1 u1)) :
    t1 = t0 ∧ ∃ dtA, u1 = upd dtA u0 := by
  induction errs generalizing dt0 with
  | nil => simp [adaptiveAdvance] at h
  | cons e rest ih =>
    rw [adaptiveAdvance] at h
    cases hq : qFactor powf tol e order with
    | error pe => rw [hq] at h; simp at h
    | ok q =>
      rw [hq] at h
      simp only at h
      split_ifs at h with h1 h2
      · exact ih _ h
      · injection h with h'
        injection h' with he hdt ht hdt1 hu
        exact ⟨ht.symm, dt0, hu.symm⟩

/-- C6: mutation discipline of `u0`, `t`, `dt`.  The base
`TimeStepper.advance` leaves `t`, `dt`, `u0` untouched when the solve
fails, and on success writes only `u0` (via `_update`) and the
boundary data, never `t` or `dt`.  `AdaptiveTimeStepper.advance` never
touches `t`; rejected attempts, the minimum-step error path and the
zero-division path leave `u0` unchanged; only the accept branch applies
`_update`, exactly once. -/
theorem advance_mutation_discipline :
    (∀ (nf : ℕ) (β ε : Type) (bcu : β → β) (e : ε) (bv : ℕ → ℚ) (ns : ℕ)
      (st : TSState nf β),
      tsAdvance bcu (.error e) bv ns st =
        .error (e, { st with bcdata := bcu st.bcdata })) ∧
    (∀ (nf : ℕ) (β ε : Type) (bcu : β → β) (ks : ℕ → ℕ → ℚ) (bv : ℕ → ℚ)
      (ns : ℕ) (st : TSState nf β),
      tsAdvance (ε := ε) bcu (.ok ks) bv ns st =
        .ok { t := st.t, dt := st.dt,
              u0 := updateRun st.dt bv nf ks ns st.u0,
              bcdata := bcu st.bcdata }) ∧
    (∀ (powf : ℚ → ℚ → ℚ) (α : Type) (upd : ℚ → α → α) (tol dtmin : ℚ)
      (order : ℤ) (errs : List ℚ) (t0 dt0 : ℚ) (u0 : α) (e : PyErr)
      (t1 dt1 : ℚ) (u1 : α),
      adaptiveAdvance powf upd tol dtmin order errs t0 dt0 u0 =
        .error (e, t1, dt1, u1) → t1 = t0 ∧ u1 = u0) ∧
    (∀ (powf : ℚ → ℚ → ℚ) (α : Type) (upd : ℚ → α → α) (tol dtmin : ℚ)
      (order : ℤ) (errs : List ℚ) (t0 dt0 : ℚ) (u0 : α) (t1 dt1 : ℚ) (u1 : α),
      adaptiveAdvance powf upd tol dtmin order errs t0 dt0 u0 =
        .ok (.running t1 dt1 u1) → t1 = t0 ∧ u1 = u0) ∧
    (∀ (powf : ℚ → ℚ → ℚ) (α : Type) (upd : ℚ → α → α) (tol dtmin : ℚ)
      (order : ℤ) (errs : List ℚ) (t0 dt0 : ℚ) (u0 : α) (er dn t1 dt1 : ℚ)
      (u1 : α),
      adaptiveAdvance powf upd tol dtmin order errs t0 dt0 u0 =
        .ok (.accepted er dn t1 dt1 u1) → t1 = t0 ∧ ∃ dtA, u1 = upd dtA u0) :=
  ⟨fun _ _ _ _ _ _ _ _ => rfl,
   fun _ _ _ _ _ _ _ _ => rfl,
   fun powf _ upd tol dtmin order errs t0 dt0 u0 e t1 dt1 u1 h =>
     adaptiveAdvance_error_frame powf upd tol dtmin order errs t0 dt0 u0 e t1 dt1 u1 h,
   fun powf _ upd tol dtmin order errs t0 dt0 u0 t1 dt1 u1 h =>
     adaptiveAdvance_running_frame powf upd tol dtmin order errs t0 dt0 u0 t1 dt1 u1 h,
   fun powf _ upd tol dtmin order errs t0 dt0 u0 er dn t1 dt1 u1 h =>
     adaptiveAdvance_accept_frame powf upd tol dtmin order errs t0 dt0 u0 er dn t1 dt1 u1 h⟩

/-- Witness for `advance_mutation_discipline`: the minimum-step error path
of a concrete adaptive run leaves `t` and `u0` unchanged. -/
theorem advance_mutation_discipline_witness :
    (0:ℚ) = 0 ∧ (5:ℚ) = 5 :=
  advance_mutation_discipline.2.2.1 (fun _ _ => 1) ℚ (fun d x => d + x) 1 1 2
    [1/2] 0 (1/100) 5 .minStepViolation 0 (1/100) 5
    (by norm_num [adaptiveAdvance, qFactor, fdiv, clampQ])

/-- One iteration of the outer loop of `AdaptiveTimeStepper._estimate_error`
(stepper.py lines 148-150): for stage `s`, field `i` gains
`dtc * delb[i] * ks[nf*s+i].dat.data_ro` — the weight is `delb[i]`, indexed
by the field counter `i` of `enumerate(self.error_func.dat)`, not by the
stage counter `s`. -/
def estErrAdd (dtc : ℚ) (delb : ℕ → ℚ) (nf : ℕ) (ks : ℕ → ℕ → ℚ) (s : ℕ)
    (e : Fin nf → ℕ → ℚ) : Fin nf → ℕ → ℚ :=
  fun i d => e i d + dtc * delb i.val * ks (nf * s + i.val) d

/-- The loop `for s in range(self.num_stages)` of `_estimate_error`. -/
def estErrRun (dtc : ℚ) (delb : ℕ → ℚ) (nf : ℕ) (ks : ℕ → ℕ → ℚ) :
    ℕ → (Fin nf → ℕ → ℚ) → (Fin nf → ℕ → ℚ)
  | 0, e => e
  | n + 1, e => estErrAdd dtc delb nf ks n (estErrRun dtc delb nf ks n e)

/-- The contents of `self.error_func` computed by
`AdaptiveTimeStepper._estimate_error` (stepper.py lines 136-151): the arrays
are zeroed and then the stage loop is run; the method returns
`norm(self.error_func)`.  `delb = b - btilde` (stepper.py line 133). -/
def estimate_error_func (dtc : ℚ) (delb : ℕ → ℚ) (nf ns : ℕ)
    (ks : ℕ → ℕ → ℚ) : Fin nf → ℕ → ℚ :=
  estErrRun dtc delb nf ks ns (fun _ _ => 0)

/-- The difference between the full-order and embedded-order increments, as
described by the claim and by `_estimate_error`'s own docstring:
`Σ_s dt*(b[s]-btilde[s])*k_{s,i}`, with stage-indexed weights. -/
def specErrIncrement (dtc : ℚ) (delb : ℕ → ℚ) (nf ns : ℕ)
    (ks : ℕ → ℕ → ℚ) : Fin nf → ℕ → ℚ :=
  fun i d => ∑ s ∈ Finset.range ns, dtc * delb s * ks (nf * s + i.val) d

/-- Squared L2 norm over the first `m` dofs of each field, standing for
`firedrake.norm`: two error functions have the same norm iff they have the
same squared norm. -/
def normSqOn (nf m : ℕ) (e : Fin nf → ℕ → ℚ) : ℚ :=
  ∑ i : Fin nf, ∑ d ∈ Finset.range m, (e i d)^2

/-- C1 (code bug): `_estimate_error` weights stage `s`'s contribution by
`delb[i]` — `i` the field index — instead of `delb[s]` as its docstring,
the specification and the claim state.  At `num_stages = 2`,
`num_fields = 1`, `dt = 1`, `b - btilde = (1, 2)` and all stage data equal
to 1, the code's error function is `1+1 = 2` while the docstring's
difference of the two embedded solutions is `1+2 = 3`, so the returned
norms differ (`4 ≠ 9` after squaring). -/
theorem estimate_error_field_index_bug :
    estimate_error_func 1 (fun s => if s = 0 then 1 else 2) 1 2 (fun _ _ => 1)
      ⟨0, Nat.one_pos⟩ 0 = 2 ∧
    specErrIncrement 1 (fun s => if s = 0 then 1 else 2) 1 2 (fun _ _ => 1)
      ⟨0, Nat.one_pos⟩ 0 = 3 ∧
    normSqOn 1 1 (estimate_error_func 1 (fun s => if s = 0 then 1 else 2) 1 2
        (fun _ _ => 1)) ≠
      normSqOn 1 1 (specErrIncrement 1 (fun s => if s = 0 then 1 else 2) 1 2
        (fun _ _ => 1)) := by
  refine ⟨?_, ?_, ?_⟩ <;>
    norm_num [estimate_error_func, estErrRun, estErrAdd, specErrIncrement,
      normSqOn, Finset.sum_range_succ, Fin.sum_univ_one]

/-- The entity dofs of the 1-D time element, as returned by FIAT's
`entity_dofs()` on the unit interval: `v0 = edofs[0][0]` (dofs on the
left vertex, `x = 0`), `interior = edofs[1][0]` (dofs on the cell
interior), `v1 = edofs[0][1]` (dofs on the right vertex, `x = 1`). -/
structure EntityDofs where
  v0 : List ℕ
  interior : List ℕ
  v1 : List ℕ

/-- `perm = [*edofs[0][0], *edofs[1][0], *edofs[0][1]]`
(discontinuous_galerkin_stepper.py line 78): the geometric sort of the time
element's dofs — left vertex dofs first, then interior dofs, then right
vertex dofs. -/
def dgPerm (ed : EntityDofs) : List ℕ :=
  ed.v0 ++ ed.interior ++ ed.v1

/-- A UFL-like expression language sufficient for the terms built by
`getFormDiscGalerkin`: the leaves `u0`, the test function `v`, the time
`t`, the step `dt`, components `u_np[i]` / `v_np[i]` of the stage unknown
and stage test function, rational constants (tabulated basis and quadrature
data wrapped in `Constant`), arithmetic nodes, and opaque spatial
subexpressions of the user form `F`. -/
inductive TExpr where
  | u0
  | v
  | t
  | dt
  | uStage (i : ℕ)
  | vStage (i : ℕ)
  | lit (q : ℚ)
  | atom (n : ℕ)
  | add (a b : TExpr)
  | sub (a b : TExpr)
  | mul (a b : TExpr)
  | div (a b : TExpr)
  deriving DecidableEq, Repr

/-- Modelled from the spec: `component_replace` / `replace` imported by
`discontinuous_galerkin_stepper.py` from `irksome/tools.py`, a file not
included in the sources.  Per the specification the form abstraction
supports "symbolic substitution of sub-expressions"; a replacement
dictionary is modelled as simultaneous structural replacement of the leaves
`u0`, `v` and `t` (those are the keys the transformer uses). -/
def substUVT (ru rv rt : Option TExpr) : TExpr → TExpr
  | .u0 => ru.getD .u0
  | .v => rv.getD .v
  | .t => rt.getD .t
  | .add a b => .add (substUVT ru rv rt a) (substUVT ru rv rt b)
  | .sub a b => .sub (substUVT ru rv rt a) (substUVT ru rv rt b)
  | .mul a b => .mul (substUVT ru rv rt a) (substUVT ru rv rt b)
  | .div a b => .div (substUVT ru rv rt a) (substUVT ru rv rt b)
  | e => e

/-- The contraction `u_np @ col` of the stage vector with a column of a
tabulation: `Σ_s col[s] * u_np[s]`. -/
def stageDot (col : ℕ → ℚ) (ns : ℕ) : TExpr :=
  (List.range ns).foldr
    (fun s acc => .add (.mul (.lit (col s)) (.uStage s)) acc) (.lit 0)

/-- A tabulation re-indexed by the geometric permutation:
`basis_vals = basis_vals[perm]` (line 79), so row `s` of the permuted table
is row `perm[s]` of FIAT's table. -/
def permTab (perm : List ℕ) (tab : ℕ → ℕ → ℚ) : ℕ → ℕ → ℚ :=
  fun r c => tab (perm.getD r 0) c

/-- One time-derivative quadrature term (lines 103-112):
`dt * qwts[q] * basis_vals[i, q] * F_i{t ↦ t + dt*qpts[q],
u0 ↦ (1/dt)*(u_np @ basis_dvals[:, q])}` where
`F_i = dtless{v ↦ v_np[i]}`. -/
def dgTimeDerivTerm (dtless : TExpr) (bval dval : ℕ → ℕ → ℚ) (qp qw : ℕ → ℚ)
    (ns i q : ℕ) : TExpr :=
  .mul (.mul (.mul .dt (.lit (qw q))) (.lit (bval i q)))
    (substUVT (some (.mul (.div (.lit 1) .dt) (stageDot (fun s => dval s q) ns)))
      none (some (.add .t (.mul .dt (.lit (qp q)))))
      (substUVT none (some (.vStage i)) none dtless))

/-- One remainder quadrature term (lines 121-130): as above but with
`u0 ↦ u_np @ basis_vals[:, q]` and the remainder part of the form. -/
def dgRemainderTerm (rem : TExpr) (bval : ℕ → ℕ → ℚ) (qp qw : ℕ → ℚ)
    (ns i q : ℕ) : TExpr :=
  .mul (.mul (.mul .dt (.lit (qw q))) (.lit (bval i q)))
    (substUVT (some (stageDot (fun s => bval s q) ns)) none
      (some (.add .t (.mul .dt (.lit (qp q)))))
      (substUVT none (some (.vStage i)) none rem))

/-- The jump term (lines 114-118): `dtless{u0 ↦ u_np[0] - u0, v ↦ v_np[0]}`,
added to `Fnew` once. -/
def dgJumpTerm (dtless : TExpr) : TExpr :=
  substUVT (some (.sub (.uStage 0) .u0)) (some (.vStage 0)) none dtless

/-- The summands accumulated into `Fnew` by `getFormDiscGalerkin`
(lines 94-130), in program order: the time-derivative quadrature terms, the
single jump term, then the remainder quadrature terms.  `dtless` and `rem`
are the outputs of `strip_dt_form(extract_terms(F).time)` and
`extract_terms(F).remainder` (from `irksome/manipulation.py`, not included
in the sources; per the specification they split `F` into the
time-derivative part, with the derivative symbol stripped, and the spatial
remainder).  The tabulations are used through the geometric permutation of
line 78-80. -/
def getFormDiscGalerkinTerms (dtless rem : TExpr) (ed : EntityDofs)
    (bval dval : ℕ → ℕ → ℚ) (qp qw : ℕ → ℚ) (ns nq : ℕ) : List TExpr :=
  ((List.range ns).map (fun i => (List.range nq).map
      (fun q => dgTimeDerivTerm dtless (permTab (dgPerm ed) bval)
        (permTab (dgPerm ed) dval) qp qw ns i q))).flatten
  ++ [dgJumpTerm dtless]
  ++ ((List.range ns).map (fun i => (List.range nq).map
      (fun q => dgRemainderTerm rem (permTab (dgPerm ed) bval) qp qw ns i q))).flatten

/-- The syntactic shape shared by every quadrature-summed term and by no
other term of the transformer: a product whose leftmost factor is `dt`. -/
def isQuadTerm : TExpr → Bool
  | .mul (.mul (.mul .dt _) _) _ => true
  | _ => false

/-- C3: the form produced by `getFormDiscGalerkin` contains exactly one
term that is not a `dt`-scaled quadrature term — the jump term — and it is
obtained from the stripped time-derivative part `dtless` of `F` by
substituting `u_np[0] - u0` for `u0` and the stage-0 test component for
`v`; the stage ordering is permuted geometrically, left vertex dofs first,
then interior dofs, then right vertex dofs, so stage 0 is the dof at the
left end of the time interval. -/
theorem dg_form_jump_term (dtless rem : TExpr) (ed : EntityDofs)
    (bval dval : ℕ → ℕ → ℚ) (qp qw : ℕ → ℚ) (ns nq : ℕ)
    (hjump : isQuadTerm (dgJumpTerm dtless) = false) :
    (getFormDiscGalerkinTerms dtless rem ed bval dval qp qw ns nq).filter
        (fun e => !(isQuadTerm e)) = [dgJumpTerm dtless] ∧
    dgJumpTerm dtless =
      substUVT (some (.sub (.uStage 0) .u0)) (some (.vStage 0)) none dtless ∧
    dgPerm ed = ed.v0 ++ ed.interior ++ ed.v1 ∧
    (ed.v0 ≠ [] → (dgPerm ed).head? = ed.v0.head?) := by
  refine ⟨?_, rfl, rfl, ?_⟩
  · rw [getFormDiscGalerkinTerms]
    rw [List.filter_append, List.filter_append]
    have htd : ∀ l : List (List TExpr),
        (∀ x ∈ l.flatten, isQuadTerm x = true) →
        l.flatten.filter (fun e => !(isQuadTerm e)) = [] := by
      intro l hl
      rw [List.filter_eq_nil_iff]
      intro a ha
      simp [hl a ha]
    rw [htd _ ?_, htd _ ?_]
    · simp [hjump]
    · intro x hx
      simp only [List.mem_flatten, List.mem_map, List.mem_range] at hx
      obtain ⟨_, ⟨i, -, rfl⟩, hx⟩ := hx
      simp only [List.mem_map, List.mem_range] at hx
      obtain ⟨q, -, rfl⟩ := hx
      rfl
    · intro x hx
      simp only [List.mem_flatten, List.mem_map, List.mem_range] at hx
      obtain ⟨_, ⟨i, -, rfl⟩, hx⟩ := hx
      simp only [List.mem_map, List.mem_range] at hx
      obtain ⟨q, -, rfl⟩ := hx
      rfl
  · intro hv
    cases h : ed.v0 with
    | nil => exact absurd h hv
    | cons x xs => simp [dgPerm, h]

/-- Witness for `dg_form_jump_term`: a Lagrange-1-like element
(`v0 = [0]`, `v1 = [1]`), one stage and one quadrature point, with
`dtless = u0 * v` (a typical stripped mass term). -/
theorem dg_form_jump_term_witness :
    ((getFormDiscGalerkinTerms (.mul .u0 .v) (.atom 0) ⟨[0], [], [1]⟩
        (fun _ _ => 1) (fun _ _ => 1) (fun _ => 1/2) (fun _ => 1) 1 1).filter
        (fun e => !(isQuadTerm e)) = [dgJumpTerm (.mul .u0 .v)] ∧
      dgJumpTerm (.mul .u0 .v) =
        substUVT (some (.sub (.uStage 0) .u0)) (some (.vStage 0)) none
          (.mul .u0 .v) ∧
      dgPerm ⟨[0], [], [1]⟩ = [0] ++ [] ++ [1] ∧
      (([0] : List ℕ) ≠ [] → (dgPerm ⟨[0], [], [1]⟩).head? = ([0] : List ℕ).head?)) :=
  dg_form_jump_term (.mul .u0 .v) (.atom 0) ⟨[0], [], [1]⟩
    (fun _ _ => 1) (fun _ _ => 1) (fun _ => 1/2) (fun _ => 1) 1 1 (by decide)

/-- A quadrature rule on the unit time interval, as seen through
`get_points()` and `get_weights()`. -/
structure TimeQuadrature where
  pts : List ℚ
  wts : List ℚ

/-- The quadrature precondition of
`DiscontinuousGalerkinTimeStepper.__init__`
(discontinuous_galerkin_stepper.py line 220):
`assert np.size(quadrature.get_points()) >= order+1`.  The points of a 1-D
rule have one coordinate each, so `np.size` is the number of points. -/
def dgQuadCheck (order : ℕ) (Q : TimeQuadrature) : Bool :=
  order + 1 ≤ Q.pts.length

/-- Degree of exactness of a quadrature rule on `[0, 1]`: it integrates all
monomials `x^k` with `k ≤ d` (hence all polynomials of degree at most `d`)
exactly. -/
def exactUpTo (Q : TimeQuadrature) (d : ℕ) : Prop :=
  ∀ k ∈ Finset.range (d + 1),
    ((Q.wts.zip Q.pts).map (fun p => p.1 * p.2 ^ k)).sum = 1 / (k + 1 : ℚ)

/-- C7 counterexample: the constructor's check is a point-count check, not
an accuracy check.  At `order = 1`, the rule with points `{0, 1}` and zero
weights passes `np.size(points) >= order+1` and is accepted, yet it is not
exact even for constants, hence not "at least as accurate as the time
element's polynomial degree + 1". -/
theorem dg_quad_check_accepts_inaccurate_rule :
    dgQuadCheck 1 ⟨[0, 1], [0, 0]⟩ = true ∧
    ¬ exactUpTo ⟨[0, 1], [0, 0]⟩ 2 := by
  constructor
  · rfl
  · intro h
    have h0 := h 0 (by decide)
    norm_num [List.zip] at h0

/-- C7 amended: `DiscontinuousGalerkinTimeStepper.__init__` rejects exactly
the quadrature rules with fewer than `order+1` points (a point-count proxy
for accuracy, satisfied in particular by the default Gauss rule, which has
`order+1` points). -/
theorem dg_quad_check_point_count :
    (∀ (order : ℕ) (Q : TimeQuadrature),
      dgQuadCheck order Q = true ↔ order + 1 ≤ Q.pts.length) ∧
    (∀ (order : ℕ) (Q : TimeQuadrature),
      Q.pts.length = order + 1 → dgQuadCheck order Q = true) := by
  constructor
  · intro order Q
    simp [dgQuadCheck]
  · intro order Q h
    simp [dgQuadCheck, h]

/-- Witness for `dg_quad_check_point_count`: a two-point rule at `order = 1`
(the default Gauss rule has `order+1 = 2` points) passes the check. -/
theorem dg_quad_check_point_count_witness :
    dgQuadCheck 1 ⟨[1/4, 3/4], [1/2, 1/2]⟩ = true :=
  dg_quad_check_point_count.2 1 ⟨[1/4, 3/4], [1/2, 1/2]⟩ rfl

/-- The methods defined on class `TimeStepper` (stepper.py lines 8-92). -/
def timeStepperMethods : List String :=
  ["__init__", "_update", "advance"]

/-- The methods available on class `AdaptiveTimeStepper` (stepper.py lines
95-187): it overrides `__init__` and `advance`, adds `_estimate_error`, and
inherits `_update` from `TimeStepper`. -/
def adaptiveTimeStepperMethods : List String :=
  ["__init__", "_estimate_error", "advance", "_update"]

/-- The methods defined on class `DiscontinuousGalerkinTimeStepper`
(discontinuous_galerkin_stepper.py lines 150-270). -/
def dgTimeStepperMethods : List String :=
  ["__init__", "advance", "solver_stats"]

/-- The state of a `DiscontinuousGalerkinTimeStepper` touched by `advance`:
the three counters initialised to zero in `__init__` (lines 222-224) and
the per-field solution `u0`. -/
structure DGState (nf : ℕ) (α : Type) where
  num_steps : ℕ
  num_nonlinear_iterations : ℕ
  num_linear_iterations : ℕ
  u0 : Fin nf → α

/-- `DiscontinuousGalerkinTimeStepper.advance` (lines 251-267): the
external solve produces the converged flat stage vector `UU.subfunctions`
(parameter `UU`) and the iteration counts (`nlit`, `lit`); the counters are
bumped, and each field `i` of `u0` is assigned the stage sub-function at
flat index `num_fields*order + i`. -/
def dgAdvance {α : Type} (nf order : ℕ) (UU : ℕ → α) (nlit lit : ℕ)
    (st : DGState nf α) : DGState nf α :=
  { num_steps := st.num_steps + 1,
    num_nonlinear_iterations := st.num_nonlinear_iterations + nlit,
    num_linear_iterations := st.num_linear_iterations + lit,
    u0 := fun i => UU (nf * order + i.val) }

/-- `DiscontinuousGalerkinTimeStepper.solver_stats` (lines 269-270). -/
def solver_stats {nf : ℕ} {α : Type} (st : DGState nf α) : ℕ × ℕ × ℕ :=
  (st.num_steps, st.num_nonlinear_iterations, st.num_linear_iterations)

/-- The counter initialisation of `__init__` (lines 222-224). -/
def dgInit {α : Type} (nf : ℕ) (u0 : Fin nf → α) : DGState nf α :=
  ⟨0, 0, 0, u0⟩

/-- `n` successive calls to `advance`, each with its own solver output. -/
def dgRun {α : Type} (nf order : ℕ) (calls : List ((ℕ → α) × ℕ × ℕ))
    (st : DGState nf α) : DGState nf α :=
  calls.foldl (fun s c => dgAdvance nf order c.1 c.2.1 c.2.2 s) st

theorem dgRun_num_steps {α : Type} (nf order : ℕ)
    (calls : List ((ℕ → α) × ℕ × ℕ)) (st : DGState nf α) :
    (dgRun nf order calls st).num_steps = st.num_steps + calls.length := by
  induction calls generalizing st with
  | nil => rfl
  | cons c rest ih =>
    show (dgRun nf order rest (dgAdvance nf order c.1 c.2.1 c.2.2 st)).num_steps = _
    rw [ih]
    simp [dgAdvance]
    omega

/-- C8 counterexample: `solver_stats` is not exposed by every public
stepper — neither `TimeStepper` nor `AdaptiveTimeStepper` defines it (or
any step counter); only `DiscontinuousGalerkinTimeStepper` does. -/
theorem solver_stats_not_universal :
    ¬ ("solver_stats" ∈ timeStepperMethods ∧
       "solver_stats" ∈ adaptiveTimeStepperMethods ∧
       "solver_stats" ∈ dgTimeStepperMethods) := by
  decide

/-- C8 amended: only `DiscontinuousGalerkinTimeStepper` exposes
`solver_stats()`, returning `(num_steps, num_nonlinear_iterations,
num_linear_iterations)`; after `n` calls to its `advance()` the step
counter equals `n`.  The RK steppers expose no such accessor. -/
theorem dg_solver_stats_step_count :
    (∀ (α : Type) (nf order : ℕ) (calls : List ((ℕ → α) × ℕ × ℕ))
      (u0 : Fin nf → α),
      (solver_stats (dgRun nf order calls (dgInit nf u0))).1 = calls.length) ∧
    "solver_stats" ∈ dgTimeStepperMethods ∧
    "solver_stats" ∉ timeStepperMethods ∧
    "solver_stats" ∉ adaptiveTimeStepperMethods := by
  refine ⟨?_, by decide, by decide, by decide⟩
  intro α nf order calls u0
  show (dgRun nf order calls (dgInit nf u0)).num_steps = calls.length
  rw [dgRun_num_steps]
  simp [dgInit]

/-- C9: after `DiscontinuousGalerkinTimeStepper.advance`, field `i` of `u0`
equals the stage component at flat index `num_fields*order + i`; with
`num_stages = order + 1` (the dimension of the order-`order` DG time
element) that flat index addresses field `i` of the last stage, which under
the geometric dof sort is the right-endpoint dof; and the update reads no
other stage component and no quadrature weights. -/
theorem dg_advance_right_endpoint :
    (∀ (α : Type) (nf order : ℕ) (UU : ℕ → α) (nlit lit : ℕ)
      (st : DGState nf α) (i : Fin nf),
      (dgAdvance nf order UU nlit lit st).u0 i = UU (nf * order + i.val)) ∧
    (∀ (nf order num_stages : ℕ) (i : Fin nf), num_stages = order + 1 →
      nf * order + i.val = nf * (num_stages - 1) + i.val) ∧
    (∀ (α : Type) (nf order : ℕ) (UU UU' : ℕ → α) (nlit lit nlit' lit' : ℕ)
      (st st' : DGState nf α) (i : Fin nf),
      UU (nf * order + i.val) = UU' (nf * order + i.val) →
      (dgAdvance nf order UU nlit lit st).u0 i =
        (dgAdvance nf order UU' nlit' lit' st').u0 i) ∧
    (∀ (ed : EntityDofs) (rv : ℕ), ed.v1 = [rv] →
      (dgPerm ed).getLast? = some rv) := by
  refine ⟨fun _ _ _ _ _ _ _ _ => rfl, ?_, ?_, ?_⟩
  · intro nf order ns i h
    subst h
    simp
  · intro α nf order UU UU' nlit lit nlit' lit' st st' i h
    exact h
  · intro ed rv h
    show (ed.v0 ++ ed.interior ++ ed.v1).getLast? = some rv
    rw [h, List.getLast?_concat]

/-- Witness for `dg_advance_right_endpoint`: a 1-field, order-2 stepper;
the last of the three stages (flat index 2) is the right-endpoint value,
and for a Lagrange-2-like dof layout the geometrically sorted ordering ends
at the right vertex dof. -/
theorem dg_advance_right_endpoint_witness :
    (1 * 2 + (0 : Fin 1).val = 1 * (3 - 1) + (0 : Fin 1).val) ∧
    ((dgAdvance 1 2 (fun j => (j : ℤ)) 4 9 (dgInit 1 (fun _ => 0))).u0 0 =
      (dgAdvance 1 2 (fun j => (j + 0 : ℤ)) 5 11 (dgInit 1 (fun _ => 7))).u0 0) ∧
    (dgPerm ⟨[0], [2], [1]⟩).getLast? = some 1 :=
  ⟨dg_advance_right_endpoint.2.1 1 2 3 0 rfl,
   dg_advance_right_endpoint.2.2.1 ℤ 1 2 (fun j => (j : ℤ)) (fun j => (j + 0 : ℤ))
     4 9 5 11 (dgInit 1 (fun _ => 0)) (dgInit 1 (fun _ => 7)) 0 (by norm_num),
   dg_advance_right_endpoint.2.2.2 ⟨[0], [2], [1]⟩ 1 rfl⟩

end Irksome
